import Mathlib

/-!
Verification development for the hackrx retrieval-augmented QA service.

The repository contains several variants of one Express pipeline:
* `src/index.js` — simple variant: auth gate, download to `./temp-<uuid>.pdf`,
  chunk/embed/upsert, sequential question loop.
* `src/unnamed/part_000` — keyed-object variant: fixed `temp.pdf` path,
  answers collected into an object keyed by question.
* `src/unnamed/part_001` — chat variant: global `History`, `transformQuery`
  rewrites a follow-up question and pops the speculative turn.
* `src/unnamed/part_002` / `src/unnamed/part_003` — dedup-cache variants:
  `hashURL` (SHA-256 of the URL), `processedDocs` set, `processDocument`
  (part_003: extension gate for .pdf/.docx), `queryWithRetry` (2 attempts,
  500 ms delay), `answerQuestion` (catch-all fallback string), and a
  `Promise.all` over `questions.map`.

External services (axios download, document loaders, embedding service,
Pinecone index, Gemini LLM) are modelled as oracles: each call site takes the
call's outcome (`Except`-valued) as input, and the step functions additionally
emit an event trace recording which external calls were issued, in order.
-/

namespace HackRx

/-- Which document loader `processDocument` selects (part_003 lines 52-58). -/
inductive Loader where
  | pdf
  | docx
deriving DecidableEq, Repr

/-- Observable external-call events emitted by the pipeline, in program order:
document download, loader invocation, chunk embedding, vector upsert,
query embedding, vector-index query (with attempt number), fixed backoff
delay, LLM call. -/
inductive Event where
  | download (url : String)
  | loadDoc (l : Loader)
  | embedChunks
  | upsert
  | embedQuery (q : String)
  | vquery (attempt : Nat)
  | wait (ms : Nat)
  | llmCall (q : String)
deriving DecidableEq, Repr

/-- `ext.toLowerCase()` (part_003 line 36): lower-case every character. -/
def strToLower (s : String) : String :=
  String.mk (s.data.map Char.toLower)

/-- Drop characters up to and including the first occurrence of `"://"`,
the scheme separator of a URL.  Returns the remainder, or `[]` when the
marker does not occur. -/
def dropSchemeMark : List Char → List Char
  | [] => []
  | ':' :: '/' :: '/' :: rest => rest
  | _ :: rest => dropSchemeMark rest

/-- `new URL(url).pathname` (part_003 line 36), for well-formed absolute URLs:
the part after the authority component, truncated at the query (`?`) or
fragment (`#`) separator; `"/"` when the authority is not followed by a
path. -/
def urlPathname (url : String) : String :=
  let afterScheme := dropSchemeMark url.data
  let afterAuthority :=
    afterScheme.dropWhile (fun c => c ≠ '/' ∧ c ≠ '?' ∧ c ≠ '#')
  let p := afterAuthority.takeWhile (fun c => c ≠ '?' ∧ c ≠ '#')
  if p = [] then "/" else String.mk p

/-- Index of the last occurrence of `c` in `l`, or `none`. -/
def lastIdxOf (c : Char) : List Char → Option Nat
  | [] => none
  | x :: xs =>
    match lastIdxOf c xs with
    | some i => some (i + 1)
    | none => if x = c then some 0 else none

/-- The basename of a path: everything after the final `/`. -/
def baseName (p : String) : String :=
  match lastIdxOf '/' p.data with
  | some i => String.mk (p.data.drop (i + 1))
  | none => p

/-- Node's `path.extname` (part_003 line 36): the substring of the basename
from its last `.` to the end; empty when the basename has no `.` or when its
only `.` is the leading character (dotfiles have no extension). -/
def extName (p : String) : String :=
  let b := (baseName p).data
  match lastIdxOf '.' b with
  | none => ""
  | some 0 => ""
  | some i => String.mk (b.drop i)

/-- The lower-cased extension `processDocument` gates on (part_003 line 36):
`path.extname(new URL(url).pathname).toLowerCase()`. -/
def urlExt (url : String) : String :=
  strToLower (extName (urlPathname url))

/-- Loader selection of part_003 lines 52-58: `PDFLoader` for `.pdf`,
`DocxLoader` for `.docx`. -/
def chooseLoader (ext : String) : Option Loader :=
  if ext = ".pdf" then some Loader.pdf
  else if ext = ".docx" then some Loader.docx
  else none

/-- Result of a Pinecone query: the `matches` array, kept as the list of
`metadata.text` fields (the only part the pipeline reads). -/
structure QueryResult where
  matchTexts : List String
deriving DecidableEq, Repr

/-- One iteration step of `queryWithRetry` (part_003 lines 89-103,
part_002 lines 68-82).  `oracle n` is the outcome of the `n`-th
`pineconeIndex.query` call.  `retries` is an `Int` because the JS parameter
is an arbitrary number; the loop `for (let attempt = 1; attempt <= retries;
attempt++)` never runs when `retries ≤ 0` and the function then returns
`undefined`, modelled as `Except.ok none`.  On a failing attempt that is not
the last, the code waits 500 ms and retries; on the last it re-throws the
caught error. -/
def queryLoop (oracle : Nat → Except String QueryResult) (attempt : Nat) :
    Nat → Except String (Option QueryResult) × List Event
  | 0 => (Except.ok none, [])
  | remaining + 1 =>
    match oracle attempt with
    | Except.ok r => (Except.ok (some r), [Event.vquery attempt])
    | Except.error e =>
      if remaining = 0 then (Except.error e, [Event.vquery attempt])
      else
        let rest := queryLoop oracle (attempt + 1) remaining
        (rest.1, Event.vquery attempt :: Event.wait 500 :: rest.2)

/-- `queryWithRetry(pineconeIndex, queryVector, retries = 2)`: the loop
starting at attempt 1, with `max retries 0` iterations left (`attempt ≤
retries` at attempt number `a` is `retries - a + 1 > 0`, so the iteration
count is `retries.toNat` and the `attempt === retries` test is `remaining =
0` after discounting the current iteration). -/
def queryWithRetry (oracle : Nat → Except String QueryResult)
    (retries : Int := 2) : Except String (Option QueryResult) × List Event :=
  queryLoop oracle 1 retries.toNat

/-- Oracle for one `answerQuestion` call: the outcome of
`embeddings.embedQuery` (an abstract vector id on success), of each
`pineconeIndex.query` attempt, and of the Gemini `generateContent` call as a
function of the prompt text. -/
structure QOracle where
  embedOut : Except String Nat
  queryAttempt : Nat → Except String QueryResult
  llm : String → Except String String

/-- The `Source N` context assembly of part_003 lines 111-113:
`results.matches.map((m, idx) => "Source " + (idx+1) + ":\n" + text)` joined
with `"\n\n---\n\n"`. -/
def contextChunks (texts : List String) : String :=
  String.intercalate "\n\n---\n\n"
    (texts.enum.map (fun p =>
      "Source " ++ toString (p.1 + 1) ++ ":\n" ++ p.2))

/-- The prompt template of part_003 lines 115-143, as passed to
`model.generateContent` after `.trim()`. -/
def promptOf (question ctx : String) : String :=
  ("\nYou are an expert insurance policy analyst. Provide concise yet comprehensive answers with maximum numerical precision.\n\nCRITICAL REQUIREMENTS:\n- For yes/no questions: Start with \"Yes,\" or \"No,\" then provide essential explanation\n- Include ALL key numbers: exact days, months, years, percentages, amounts\n- State important plan variations (Plan A vs Plan B vs Plan C) with key differences only\n- Include essential age limits, waiting periods, and main coverage conditions\n- Quote main benefit amounts, caps, and limits with numbers\n- Mention only critical exceptions and key conditions\n- Keep responses concise-medium length (50 words max) but include all essential details\nYou are an expert insurance claims evaluator. Based on the provided context from policy documents, evaluate the insurance claim and make a decision.\n\nOriginal Query: \x7binput\x7d\nParsed Information: \x7bparsedInfo\x7d\n\nContext from Policy Documents:\n\x7bcontext\x7d\n\nInstructions:\n1. Analyze the query against the provided policy context\n2. Make a clear decision: \"Approved\" or \"Rejected\"\n3. If approved, determine the coverage amount (use null if not specified)\n4. Provide detailed justification referencing specific clauses or sections\nQuestion: "
    ++ question ++ "\n\nContext:\n" ++ ctx ++ "\n    ").trim

/-- The fixed per-question fallback returned by `answerQuestion`'s catch
block (part_003 line 151). -/
def errorFallback : String := "An error occurred while processing this question."

/-- `answerQuestion(question, embeddings, pineconeIndex)` (part_003 lines
106-153): embed the question, query Pinecone through `queryWithRetry`
(default 2 attempts), build the `Source N` context and prompt, call Gemini,
and return the trimmed response text.  Every throw inside the `try` —
embedding failure, exhausted retries, or LLM failure — is caught and turned
into the fixed fallback string; the function never propagates an error.
Returns the answer together with the external-call trace. -/
def answerQuestion (question : String) (o : QOracle) : String × List Event :=
  match o.embedOut with
  | Except.error _ => (errorFallback, [Event.embedQuery question])
  | Except.ok _ =>
    match queryWithRetry o.queryAttempt with
    | (Except.error _, tr) => (errorFallback, Event.embedQuery question :: tr)
    | (Except.ok none, tr) =>
      -- `queryWithRetry` returned `undefined`: reading `.matches` throws a
      -- TypeError, caught by the same catch block.
      (errorFallback, Event.embedQuery question :: tr)
    | (Except.ok (some r), tr) =>
      match o.llm (promptOf question (contextChunks r.matchTexts)) with
      | Except.error _ =>
        (errorFallback, Event.embedQuery question :: tr ++ [Event.llmCall question])
      | Except.ok text =>
        (text.trim, Event.embedQuery question :: tr ++ [Event.llmCall question])

/-- Oracle for one `processDocument` call: outcomes of the axios download,
of `loader.load()` (the page texts), and of the combined
`PineconeStore.fromDocuments` embed-and-upsert call. -/
structure IngestOracle where
  download : Except String Unit
  load : Except String (List String)
  embedUpsert : Except String Unit

/-- The unsupported-format error message of part_003 line 38. -/
def unsupportedFormatMsg : String :=
  "Unsupported document format. Only PDF and DOCX are allowed."

/-- `processDocument(url)` (part_003 lines 34-86): extension gate first
(throwing before any download when the lower-cased extension is neither
`.pdf` nor `.docx`), then download to the temp path, load with the matching
loader, split, and embed + upsert via `PineconeStore.fromDocuments`.
Returns the outcome and the external-call trace in program order. -/
def processDocument (url : String) (o : IngestOracle) :
    Except String Unit × List Event :=
  let ext := urlExt url
  match chooseLoader ext with
  | none => (Except.error unsupportedFormatMsg, [])
  | some loader =>
    match o.download with
    | Except.error e => (Except.error e, [Event.download url])
    | Except.ok _ =>
      match o.load with
      | Except.error e =>
        (Except.error e, [Event.download url, Event.loadDoc loader])
      | Except.ok _ =>
        match o.embedUpsert with
        | Except.error e =>
          (Except.error e,
           [Event.download url, Event.loadDoc loader, Event.embedChunks])
        | Except.ok _ =>
          (Except.ok (),
           [Event.download url, Event.loadDoc loader, Event.embedChunks,
            Event.upsert])

/-- The request as seen by `app.post('/hackrx/run')` (part_003 lines
156-196): the `Authorization` header (absent or its string value), and the
`documents` / `questions` body fields (`none` models a missing `documents`
field and a `questions` that is not an array). -/
structure Request where
  auth : Option String
  documents : Option String
  questions : Option (List String)

/-- The four response shapes the route can produce. -/
inductive Resp where
  | unauthorized
  | badRequest
  | ok (answers : List String)
  | serverError
deriving DecidableEq, Repr

/-- Map over the questions as `questions.map((q) => answerQuestion(q, ...))`
does, keeping answer and trace per question. -/
def answerAll (qs : List String) (qo : String → QOracle) :
    List (String × List Event) :=
  qs.map (fun q => answerQuestion q (qo q))

/-- `app.post('/hackrx/run')` of part_003 lines 156-196 as a state-passing
function.  State is the in-memory `processedDocs` dedup cache (a list of
hashes standing for the JS `Set`).  `hash` is the `hashURL` content
addresser, abstracted here as a parameter so the route model is independent
of the digest implementation.  Order of operations follows the source: token
validation, body validation, hash computation, dedup-checked ingestion
(adding the hash only after `processDocument` resolves), then `Promise.all`
over `questions.map(answerQuestion)`.  Any throw inside the `try` (only
`processDocument` can throw here) is caught and yields a 500.  Returns
(response, external-call trace, new cache). -/
def runRoute (teamToken : String) (hash : String → String)
    (processedDocs : List String) (req : Request)
    (ing : IngestOracle) (qo : String → QOracle) :
    Resp × List Event × List String :=
  let bearer := "Bearer " ++ teamToken
  match req.auth with
  | none => (Resp.unauthorized, [], processedDocs)
  | some a =>
    if a ≠ bearer then (Resp.unauthorized, [], processedDocs)
    else
      match req.documents, req.questions with
      | none, _ => (Resp.badRequest, [], processedDocs)
      | some _, none => (Resp.badRequest, [], processedDocs)
      | some docs, some qs =>
        if docs = "" then (Resp.badRequest, [], processedDocs)
        else
          let h := hash docs
          if h ∈ processedDocs then
            let pairs := answerAll qs qo
            (Resp.ok (pairs.map Prod.fst), pairs.flatMap Prod.snd,
             processedDocs)
          else
            match processDocument docs ing with
            | (Except.error _, tr) => (Resp.serverError, tr, processedDocs)
            | (Except.ok _, tr) =>
              let processedDocs' := h :: processedDocs
              let pairs := answerAll qs qo
              (Resp.ok (pairs.map Prod.fst), tr ++ pairs.flatMap Prod.snd,
               processedDocs')

/-- Ingestion-side events: document download, loader run, chunk embedding,
vector upsert.  The dedup cache is meant to suppress exactly these. -/
def isIngestEvent : Event → Bool
  | Event.download _ => true
  | Event.loadDoc _ => true
  | Event.embedChunks => true
  | Event.upsert => true
  | _ => false

/-! ### `Promise.all` result collection

`Promise.all(questions.map(f))` resolves with an array whose `i`-th slot is
the result of the promise created from the `i`-th question, regardless of the
order in which the promises settle.  We model settlement order as a list of
indices (each task's completion writes its result into its own slot) and show
the collected array is the positional map, independent of that order. -/

/-- Fill an initially-empty result array of size `n`: the completion of task
`i` writes `run i` at index `i`; `order` is the settlement order. -/
def collectByIndex (run : Nat → String) (n : Nat) (order : List Nat) :
    List (Option String) :=
  order.foldl (fun acc i => acc.set i (some (run i))) (List.replicate n none)

/-! ### Query rewriting (part_001, chat variant) -/

/-- One conversation turn of the global `History` array (part_001):
`{role, parts:[{text}]}`, kept as role and text. -/
structure Turn where
  role : String
  text : String
deriving DecidableEq, Repr

/-- `transformQuery(question)` (part_001 lines 17-33) acting on an explicit
history.  The question is pushed as a speculative user turn, the LLM is
called on the extended history, and `History.pop()` runs only after the call
resolves: on success the turn is removed and the rewritten text returned; if
`generateContent` rejects, the exception propagates before the `pop`, so the
speculative turn stays in the history.  Returns (outcome, history after the
invocation). -/
def transformQuery (history : List Turn) (question : String)
    (llm : List Turn → Except String String) :
    Except String String × List Turn :=
  match llm (history ++ [(⟨"user", question⟩ : Turn)]) with
  | Except.ok text =>
    (Except.ok text, (history ++ [(⟨"user", question⟩ : Turn)]).dropLast)
  | Except.error e => (Except.error e, history ++ [(⟨"user", question⟩ : Turn)])

/-! ### Temporary artifact paths -/

/-- `./temp-${uuidv4()}.pdf` of src/index.js line 35 (and part_002 line
135), as a function of the freshly generated UUID. -/
def indexTempFilePath (uuid : String) : String :=
  "./temp-" ++ uuid ++ ".pdf"

/-- `./temp-${uuidv4()}${ext}` of part_003 line 41. -/
def part003LocalPath (uuid ext : String) : String :=
  "./temp-" ++ uuid ++ ext

/-- `path.join(__dirname, 'temp.pdf')` of part_000 line 32.  This variant
generates no UUID; the parameter stands for the fresh randomness that would
be available to the ingestion, and the path ignores it. -/
def part000PdfPath (dirname : String) (_freshUuid : String) : String :=
  dirname ++ "/temp.pdf"

/-! ### The content addresser: `hashURL` (part_003 lines 29-31, part_002
lines 27-29)

`crypto.createHash('sha256').update(url).digest('hex')` — SHA-256 (FIPS
180-4) over the UTF-8 bytes of the URL string, rendered as 64 lowercase hex
characters.  Implemented here over `Nat` with explicit `% 2^32`. -/

/-- 2^32, the word modulus of SHA-256. -/
def M32 : Nat := 4294967296

/-- Right-rotation of a 32-bit word. -/
def rotr (k n : Nat) : Nat :=
  n / 2 ^ k + n % 2 ^ k * 2 ^ (32 - k)

/-- Bitwise complement within 32 bits. -/
def not32 (n : Nat) : Nat := (M32 - 1) ^^^ n

/-- SHA-256 `Ch(e,f,g)`. -/
def shaCh (e f g : Nat) : Nat := (e &&& f) ^^^ (not32 e &&& g)

/-- SHA-256 `Maj(a,b,c)`. -/
def shaMaj (a b c : Nat) : Nat := (a &&& b) ^^^ (a &&& c) ^^^ (b &&& c)

/-- SHA-256 `Σ0`. -/
def bsig0 (x : Nat) : Nat := rotr 2 x ^^^ rotr 13 x ^^^ rotr 22 x

/-- SHA-256 `Σ1`. -/
def bsig1 (x : Nat) : Nat := rotr 6 x ^^^ rotr 11 x ^^^ rotr 25 x

/-- SHA-256 `σ0`. -/
def ssig0 (x : Nat) : Nat := rotr 7 x ^^^ rotr 18 x ^^^ x / 2 ^ 3

/-- SHA-256 `σ1`. -/
def ssig1 (x : Nat) : Nat := rotr 17 x ^^^ rotr 19 x ^^^ x / 2 ^ 10

/-- The eight 32-bit working variables / hash state. -/
structure Hash8 where
  a : Nat
  b : Nat
  c : Nat
  d : Nat
  e : Nat
  f : Nat
  g : Nat
  hh : Nat
deriving DecidableEq, Repr

/-- The SHA-256 round constants K. -/
def sha256K : List Nat :=
  [1116352408, 1899447441, 3049323471, 3921009573, 961987163,
   1508970993, 2453635748, 2870763221, 3624381080, 310598401,
   607225278, 1426881987, 1925078388, 2162078206, 2614888103,
   3248222580, 3835390401, 4022224774, 264347078, 604807628,
   770255983, 1249150122, 1555081692, 1996064986, 2554220882,
   2821834349, 2952996808, 3210313671, 3336571891, 3584528711,
   113926993, 338241895, 666307205, 773529912, 1294757372,
   1396182291, 1695183700, 1986661051, 2177026350, 2456956037,
   2730485921, 2820302411, 3259730800, 3345764771, 3516065817,
   3600352804, 4094571909, 275423344, 430227734, 506948616,
   659060556, 883997877, 958139571, 1322822218, 1537002063,
   1747873779, 1955562222, 2024104815, 2227730452, 2361852424,
   2428436474, 2756734187, 3204031479, 3329325298]

/-- The SHA-256 initial hash value. -/
def sha256H0 : Hash8 :=
  ⟨1779033703, 3144134277, 1013904242, 2773480762,
   1359893119, 2600822924, 528734635, 1541459225⟩

/-- One compression round: update the working variables with constant `k`
and schedule word `w`. -/
def shaRound (st : Hash8) (k w : Nat) : Hash8 :=
  let t1 := (st.hh + bsig1 st.e + shaCh st.e st.f st.g + k + w) % M32
  let t2 := (bsig0 st.a + shaMaj st.a st.b st.c) % M32
  ⟨(t1 + t2) % M32, st.a, st.b, st.c, (st.d + t1) % M32, st.e, st.f, st.g⟩

/-- Big-endian 32-bit word `i` of a 64-byte block. -/
def wordAt (blk : List Nat) (i : Nat) : Nat :=
  blk.getD (4 * i) 0 * 2 ^ 24 + blk.getD (4 * i + 1) 0 * 2 ^ 16 +
    blk.getD (4 * i + 2) 0 * 2 ^ 8 + blk.getD (4 * i + 3) 0

/-- The next message-schedule word from the last 16 already computed. -/
def nextW (ws : List Nat) : Nat :=
  let n := ws.length
  (ssig1 (ws.getD (n - 2) 0) + ws.getD (n - 7) 0 +
    ssig0 (ws.getD (n - 15) 0) + ws.getD (n - 16) 0) % M32

/-- The 64-word message schedule of a block. -/
def schedule (blk : List Nat) : List Nat :=
  (List.range 48).foldl (fun ws _ => ws ++ [nextW ws])
    ((List.range 16).map (wordAt blk))

/-- Componentwise sum of two hash states, mod 2^32. -/
def add8 (x y : Hash8) : Hash8 :=
  ⟨(x.a + y.a) % M32, (x.b + y.b) % M32, (x.c + y.c) % M32, (x.d + y.d) % M32,
   (x.e + y.e) % M32, (x.f + y.f) % M32, (x.g + y.g) % M32,
   (x.hh + y.hh) % M32⟩

/-- Compress one 64-byte block into the running hash state. -/
def compressBlock (hv : Hash8) (blk : List Nat) : Hash8 :=
  add8 hv ((sha256K.zip (schedule blk)).foldl
    (fun st kw => shaRound st kw.1 kw.2) hv)

/-- `n` as `k` big-endian bytes. -/
def beBytes (k n : Nat) : List Nat :=
  (List.range k).map (fun i => n / 2 ^ (8 * (k - 1 - i)) % 256)

/-- SHA-256 padding: append `0x80`, zeros to 56 mod 64, and the bit length
as 8 big-endian bytes. -/
def padMsg (msg : List Nat) : List Nat :=
  msg ++ 128 :: List.replicate ((64 - (msg.length + 9) % 64) % 64) 0 ++
    beBytes 8 (msg.length * 8)

/-- Split a byte list into 64-byte blocks, with fuel bounding the number of
blocks (structural recursion so that proofs can evaluate it). -/
def toBlocksF : Nat → List Nat → List (List Nat)
  | 0, _ => []
  | _ + 1, [] => []
  | fuel + 1, x :: xs =>
    (x :: xs).take 64 :: toBlocksF fuel ((x :: xs).drop 64)

/-- Split a byte list into 64-byte blocks. -/
def toBlocks (l : List Nat) : List (List Nat) :=
  toBlocksF l.length l

/-- The lowercase hexadecimal digit characters, in value order. -/
def hexDigits : List Char := "0123456789abcdef".data

/-- The lowercase hex character of a nibble. -/
def hexChar (n : Nat) : Char := hexDigits.getD (n % 16) '0'

/-- A 32-bit word as 8 lowercase hex characters, big-endian. -/
def wordHex (w : Nat) : List Char :=
  (List.range 8).map (fun i => hexChar (w / 16 ^ (7 - i)))

/-- The hash state as the list of its eight words. -/
def hash8Words (hv : Hash8) : List Nat :=
  [hv.a, hv.b, hv.c, hv.d, hv.e, hv.f, hv.g, hv.hh]

/-- SHA-256 of a byte list, as a 64-character lowercase hex string. -/
def sha256hexOf (msg : List Nat) : String :=
  String.mk
    ((hash8Words ((toBlocks (padMsg msg)).foldl compressBlock sha256H0)).flatMap
      wordHex)

/-- UTF-8 encoding of one character, as byte values. -/
def utf8Bytes (c : Char) : List Nat :=
  let n := c.toNat
  if n < 128 then [n]
  else if n < 2048 then [192 + n / 64, 128 + n % 64]
  else if n < 65536 then [224 + n / 4096, 128 + n / 64 % 64, 128 + n % 64]
  else [240 + n / 262144, 128 + n / 4096 % 64, 128 + n / 64 % 64,
        128 + n % 64]

/-- UTF-8 bytes of a string (what `hash.update(url)` consumes). -/
def strUtf8 (s : String) : List Nat := s.data.flatMap utf8Bytes

/-- `hashURL(url)` (part_003 lines 29-31): the SHA-256 hex digest of the
URL string's UTF-8 bytes. -/
def hashURL (url : String) : String := sha256hexOf (strUtf8 url)

/-- The authorized, well-formed request shape: correct bearer header and
both body fields present. -/
def mkReq (token docs : String) (qs : List String) : Request :=
  ⟨some ("Bearer " ++ token), some docs, some qs⟩

/-- Number of vector-index query events in a trace. -/
def countQueries (tr : List Event) : Nat :=
  (tr.filter (fun e => match e with | Event.vquery _ => true | _ => false)).length

/-! ## Supporting lemmas -/

theorem wordHex_length (w : Nat) : (wordHex w).length = 8 := by
  simp [wordHex]

theorem sha256hexOf_length (msg : List Nat) : (sha256hexOf msg).length = 64 := by
  simp [sha256hexOf, String.length, hash8Words, wordHex_length]

theorem hexChar_mem (n : Nat) : hexChar n ∈ hexDigits := by
  have h : n % 16 < hexDigits.length := by
    have : n % 16 < 16 := Nat.mod_lt _ (by norm_num)
    simpa [hexDigits] using this
  rw [hexChar, List.getD_eq_getElem _ _ h]
  exact List.getElem_mem h

theorem sha256hexOf_hex (msg : List Nat) :
    ∀ c ∈ (sha256hexOf msg).data, c ∈ hexDigits := by
  intro c hc
  simp only [sha256hexOf, hash8Words, wordHex, List.mem_flatMap,
    List.mem_map, List.mem_range] at hc
  obtain ⟨w, -, i, -, rfl⟩ := hc
  exact hexChar_mem _

/-- A standard SHA-256 test vector, checking the digest implementation:
the digest of the three bytes `"abc"` (FIPS 180-4 appendix B.1). -/
theorem sha256_testVector :
    hashURL "abc" =
      "ba7816bf8f01cfea414140de5dae2223b00361a396177a9cb410ff61f20015ad" := by
  decide

/-! ## Claim theorems -/

/-- C9: `hashURL` is a pure deterministic function from URL strings to a
fixed-length lowercase hex digest — SHA-256 over the UTF-8 bytes of the URL
string, 64 hex characters; two calls on the same string return the same
digest, and the function (a plain `def` over its argument) touches no other
state. -/
theorem hashURL_contract (u v : String) (huv : u = v) :
    hashURL u = hashURL v ∧ (hashURL u).length = 64 ∧
      ∀ c ∈ (hashURL u).data, c ∈ hexDigits := by
  subst huv
  exact ⟨rfl, sha256hexOf_length _, sha256hexOf_hex _⟩

/-- Witness for C9 at a concrete URL. -/
theorem hashURL_contract_witness :
    hashURL "https://example.com/policy.pdf" =
        hashURL "https://example.com/policy.pdf" ∧
      (hashURL "https://example.com/policy.pdf").length = 64 ∧
      ∀ c ∈ (hashURL "https://example.com/policy.pdf").data, c ∈ hexDigits :=
  hashURL_contract "https://example.com/policy.pdf"
    "https://example.com/policy.pdf" rfl

/-- C4: with the configured bound of 2 attempts, `queryWithRetry` issues at
most 2 vector-index queries for any oracle; when the first attempt fails it
waits exactly 500 ms and retries exactly once; when both attempts fail it
re-throws the second attempt's underlying error, and the trace shows exactly
two queries — never a third. -/
theorem queryWithRetry_bound (oracle : Nat → Except String QueryResult) :
    countQueries (queryWithRetry oracle 2).2 ≤ 2 ∧
    (∀ e1 r, oracle 1 = Except.error e1 → oracle 2 = Except.ok r →
      queryWithRetry oracle 2 =
        (Except.ok (some r),
         [Event.vquery 1, Event.wait 500, Event.vquery 2])) ∧
    (∀ e1 e2, oracle 1 = Except.error e1 → oracle 2 = Except.error e2 →
      queryWithRetry oracle 2 =
        (Except.error e2,
         [Event.vquery 1, Event.wait 500, Event.vquery 2])) := by
  have h2 : (2 : Int).toNat = 2 := rfl
  refine ⟨?_, ?_, ?_⟩
  · rcases h1 : oracle 1 with e1 | r1
    · rcases ho2 : oracle 2 with e2 | r2 <;>
        simp [queryWithRetry, queryLoop, h2, h1, ho2, countQueries]
    · simp [queryWithRetry, queryLoop, h2, h1, countQueries]
  · intro e1 r h1 ho2
    simp [queryWithRetry, queryLoop, h2, h1, ho2]
  · intro e1 e2 h1 ho2
    simp [queryWithRetry, queryLoop, h2, h1, ho2]

/-- Witness for C4 at a concrete always-failing oracle. -/
theorem queryWithRetry_bound_witness :
    countQueries (queryWithRetry (fun _ => Except.error "down") 2).2 ≤ 2 ∧
    queryWithRetry (fun _ => Except.error "down") 2 =
      (Except.error "down",
       [Event.vquery 1, Event.wait 500, Event.vquery 2]) :=
  ⟨(queryWithRetry_bound (fun _ => Except.error "down")).1,
   (queryWithRetry_bound (fun _ => Except.error "down")).2.2 "down" "down"
     rfl rfl⟩

/-- C10: when `queryWithRetry` is called with `retries ≤ 0`, the
`for (let attempt = 1; attempt <= retries; ...)` loop never runs: the
function returns `undefined` (`Except.ok none`), issues no vector-index
query and throws nothing; with the default bound of 2 used at the only call
site, the final-attempt error branch is reachable. -/
theorem queryWithRetry_degenerate :
    (∀ (oracle : Nat → Except String QueryResult) (retries : Int),
      retries ≤ 0 → queryWithRetry oracle retries = (Except.ok none, [])) ∧
    (∃ oracle : Nat → Except String QueryResult,
      (queryWithRetry oracle 2).1 = Except.error "down") := by
  constructor
  · intro oracle retries hr
    have h0 : retries.toNat = 0 := Int.toNat_of_nonpos hr
    simp [queryWithRetry, h0, queryLoop]
  · exact ⟨fun _ => Except.error "down", rfl⟩

/-- Witness for C10 at `retries = -1`. -/
theorem queryWithRetry_degenerate_witness :
    queryWithRetry (fun _ => Except.error "down") (-1) =
      (Except.ok none, []) :=
  queryWithRetry_degenerate.1 (fun _ => Except.error "down") (-1) (by decide)

theorem queryLoop_events (oracle : Nat → Except String QueryResult)
    (n : Nat) : ∀ attempt, ∀ e ∈ (queryLoop oracle attempt n).2,
      isIngestEvent e = false := by
  induction n with
  | zero => intro attempt e he; simp [queryLoop] at he
  | succ m ih =>
    intro attempt e he
    rcases h : oracle attempt with e1 | r
    · by_cases hm : m = 0
      · subst hm
        simp [queryLoop, h] at he
        simp [he, isIngestEvent]
      · simp [queryLoop, h, hm] at he
        rcases he with he | he | he
        · simp [he, isIngestEvent]
        · simp [he, isIngestEvent]
        · exact ih (attempt + 1) e he
    · simp [queryLoop, h] at he
      simp [he, isIngestEvent]

theorem answerQuestion_events (q : String) (o : QOracle) :
    ∀ e ∈ (answerQuestion q o).2, isIngestEvent e = false := by
  intro e he
  have htr : ∀ x ∈ (queryWithRetry o.queryAttempt).2, isIngestEvent x = false :=
    fun x hx => queryLoop_events o.queryAttempt _ 1 x hx
  unfold answerQuestion at he
  rcases hE : o.embedOut with e1 | v <;> rw [hE] at he
  · simp at he
    simp [he, isIngestEvent]
  · rcases hq : queryWithRetry o.queryAttempt with ⟨res, tr⟩
    rw [hq] at htr
    rw [hq] at he
    rcases res with e2 | r
    · simp at he
      rcases he with he | he
      · simp [he, isIngestEvent]
      · exact htr e he
    · rcases r with _ | r
      · simp at he
        rcases he with he | he
        · simp [he, isIngestEvent]
        · exact htr e he
      · rcases hl : o.llm (promptOf q (contextChunks r.matchTexts)) with e3 | t <;>
          · simp [hl] at he
            rcases he with he | he | he
            · simp [he, isIngestEvent]
            · exact htr e he
            · simp [he, isIngestEvent]

theorem answerTrace_noIngest (qs : List String) (qo : String → QOracle) :
    ((answerAll qs qo).flatMap Prod.snd).filter isIngestEvent = [] := by
  rw [List.filter_eq_nil_iff]
  intro e he
  rw [List.mem_flatMap] at he
  obtain ⟨pair, hp, he2⟩ := he
  rw [answerAll, List.mem_map] at hp
  obtain ⟨q, hq, rfl⟩ := hp
  simp [answerQuestion_events q (qo q) e he2]

theorem runRoute_cacheHit (token : String) (hash : String → String)
    (pd : List String) (docs : String) (qs : List String)
    (ing : IngestOracle) (qo : String → QOracle)
    (hd : docs ≠ "") (hmem : hash docs ∈ pd) :
    runRoute token hash pd (mkReq token docs qs) ing qo =
      (Resp.ok ((answerAll qs qo).map Prod.fst),
       (answerAll qs qo).flatMap Prod.snd, pd) := by
  simp [runRoute, mkReq, hd, hmem]

theorem runRoute_missIngest (token : String) (hash : String → String)
    (pd : List String) (docs : String) (qs : List String)
    (ing : IngestOracle) (qo : String → QOracle) (tr : List Event)
    (hd : docs ≠ "") (hmem : hash docs ∉ pd)
    (hing : processDocument docs ing = (Except.ok (), tr)) :
    runRoute token hash pd (mkReq token docs qs) ing qo =
      (Resp.ok ((answerAll qs qo).map Prod.fst),
       tr ++ (answerAll qs qo).flatMap Prod.snd, hash docs :: pd) := by
  simp [runRoute, mkReq, hd, hmem, hing]

/-- C1: idempotent ingestion per content-hash.  When the URL's hash is
already in `processedDocs`, the route performs no download, no loader run,
no chunk embedding and no vector upsert (its trace has no ingestion event),
goes straight to answering, and leaves the cache unchanged.  After a first
successful ingestion the hash is in the cache, so a second request for the
same URL — in the same process, with any oracles — again produces no
ingestion event. -/
theorem dedupIngestion (token docs : String) (qs qs2 : List String)
    (pd : List String) (ing ing2 : IngestOracle) (qo qo2 : String → QOracle)
    (hd : docs ≠ "") :
    (hashURL docs ∈ pd →
      (runRoute token hashURL pd (mkReq token docs qs) ing qo).2.1.filter
          isIngestEvent = [] ∧
      (runRoute token hashURL pd (mkReq token docs qs) ing qo).1 =
        Resp.ok ((answerAll qs qo).map Prod.fst) ∧
      (runRoute token hashURL pd (mkReq token docs qs) ing qo).2.2 = pd) ∧
    (hashURL docs ∉ pd → (processDocument docs ing).1 = Except.ok () →
      (runRoute token hashURL pd (mkReq token docs qs) ing qo).2.2 =
        hashURL docs :: pd ∧
      (runRoute token hashURL
          (runRoute token hashURL pd (mkReq token docs qs) ing qo).2.2
          (mkReq token docs qs2) ing2 qo2).2.1.filter isIngestEvent = []) := by
  constructor
  · intro hmem
    rw [runRoute_cacheHit token hashURL pd docs qs ing qo hd hmem]
    exact ⟨answerTrace_noIngest qs qo, rfl, rfl⟩
  · intro hmem hok
    have hing : processDocument docs ing =
        (Except.ok (), (processDocument docs ing).2) := by
      rcases h : processDocument docs ing with ⟨res, tr⟩
      rw [h] at hok
      simp at hok
      rw [hok]
    rw [runRoute_missIngest token hashURL pd docs qs ing qo _ hd hmem hing]
    refine ⟨rfl, ?_⟩
    rw [runRoute_cacheHit token hashURL _ docs qs2 ing2 qo2 hd
      (List.mem_cons_self _ _)]
    exact answerTrace_noIngest qs2 qo2

/-- Witness for C1: a first ingestion of a concrete PDF URL marks the hash,
and the repeat request performs no ingestion work. -/
theorem dedupIngestion_witness :
    (runRoute "t" hashURL [] (mkReq "t" "https://example.com/policy.pdf" ["q"])
        ⟨Except.ok (), Except.ok ["page"], Except.ok ()⟩
        (fun _ => ⟨Except.ok 0, fun _ => Except.ok ⟨["ctx"]⟩,
          fun _ => Except.ok "ans"⟩)).2.2 =
      hashURL "https://example.com/policy.pdf" :: [] ∧
    (runRoute "t" hashURL
        (runRoute "t" hashURL []
          (mkReq "t" "https://example.com/policy.pdf" ["q"])
          ⟨Except.ok (), Except.ok ["page"], Except.ok ()⟩
          (fun _ => ⟨Except.ok 0, fun _ => Except.ok ⟨["ctx"]⟩,
            fun _ => Except.ok "ans"⟩)).2.2
        (mkReq "t" "https://example.com/policy.pdf" ["q2"])
        ⟨Except.ok (), Except.ok ["page"], Except.ok ()⟩
        (fun _ => ⟨Except.ok 0, fun _ => Except.ok ⟨["ctx"]⟩,
          fun _ => Except.ok "ans"⟩)).2.1.filter isIngestEvent = [] :=
  (dedupIngestion "t" "https://example.com/policy.pdf" ["q"] ["q2"] []
    ⟨Except.ok (), Except.ok ["page"], Except.ok ()⟩
    ⟨Except.ok (), Except.ok ["page"], Except.ok ()⟩
    (fun _ => ⟨Except.ok 0, fun _ => Except.ok ⟨["ctx"]⟩,
      fun _ => Except.ok "ans"⟩)
    (fun _ => ⟨Except.ok 0, fun _ => Except.ok ⟨["ctx"]⟩,
      fun _ => Except.ok "ans"⟩)
    (by decide)).2 (by simp) rfl

/-- C3: when the lower-cased path extension of the document URL is neither
`.pdf` nor `.docx`, `processDocument` fails with the unsupported-format
error and its trace is empty — in particular no download of the document
body was initiated; for an allowed extension the matching loader runs (the
trace of any run that gets past the download records the corresponding
loader). -/
theorem formatGate (url : String) (o : IngestOracle) :
    (urlExt url ≠ ".pdf" → urlExt url ≠ ".docx" →
      processDocument url o = (Except.error unsupportedFormatMsg, []) ∧
      Event.download url ∉ (processDocument url o).2) ∧
    (urlExt url = ".pdf" → o.download = Except.ok () →
      Event.loadDoc Loader.pdf ∈ (processDocument url o).2) ∧
    (urlExt url = ".docx" → o.download = Except.ok () →
      Event.loadDoc Loader.docx ∈ (processDocument url o).2) := by
  refine ⟨?_, ?_, ?_⟩
  · intro h1 h2
    have hcl : chooseLoader (urlExt url) = none := by
      simp [chooseLoader, h1, h2]
    constructor
    · simp [processDocument, hcl]
    · simp [processDocument, hcl]
  · intro hp hdl
    have hcl : chooseLoader (urlExt url) = some Loader.pdf := by
      simp [chooseLoader, hp]
    rcases hl : o.load with e | docs <;>
      rcases hu : o.embedUpsert with e' | u <;>
        simp [processDocument, hcl, hdl, hl, hu]
  · intro hp hdl
    have hcl : chooseLoader (urlExt url) = some Loader.docx := by
      simp [chooseLoader, hp]
    rcases hl : o.load with e | docs <;>
      rcases hu : o.embedUpsert with e' | u <;>
        simp [processDocument, hcl, hdl, hl, hu]

/-- Witness for C3: a `.txt` URL is rejected with no download, and a `.pdf`
URL reaches the PDF loader. -/
theorem formatGate_witness :
    (processDocument "https://example.com/notes.txt"
        ⟨Except.ok (), Except.ok ["page"], Except.ok ()⟩ =
      (Except.error unsupportedFormatMsg, []) ∧
      Event.download "https://example.com/notes.txt" ∉
        (processDocument "https://example.com/notes.txt"
          ⟨Except.ok (), Except.ok ["page"], Except.ok ()⟩).2) ∧
    Event.loadDoc Loader.pdf ∈
      (processDocument "https://example.com/policy.pdf"
        ⟨Except.ok (), Except.ok ["page"], Except.ok ()⟩).2 :=
  ⟨(formatGate "https://example.com/notes.txt"
      ⟨Except.ok (), Except.ok ["page"], Except.ok ()⟩).1
    (by decide) (by decide),
   (formatGate "https://example.com/policy.pdf"
      ⟨Except.ok (), Except.ok ["page"], Except.ok ()⟩).2.1
    (by decide) rfl⟩

/-- C5: a request whose `Authorization` header is absent or differs from
`Bearer <TEAM_TOKEN>` gets the 401 Unauthorized response, with an empty
external-call trace (no document download, no embedding, no index write)
and an unchanged dedup cache; the body fields are never consulted. -/
theorem authGate (token : String) (hash : String → String)
    (pd : List String) (req : Request) (ing : IngestOracle)
    (qo : String → QOracle)
    (hbad : req.auth = none ∨
      ∀ a, req.auth = some a → a ≠ "Bearer " ++ token) :
    runRoute token hash pd req ing qo = (Resp.unauthorized, [], pd) := by
  rcases req with ⟨auth, documents, questions⟩
  rcases auth with _ | a
  · simp [runRoute]
  · rcases hbad with h | h
    · simp at h
    · have ha : a ≠ "Bearer " ++ token := h a rfl
      simp [runRoute, ha]

/-- Witness for C5: a request with a wrong bearer token is rejected with no
side effects. -/
theorem authGate_witness :
    runRoute "secret" hashURL ["h0"]
        ⟨some "Bearer wrong", some "https://example.com/policy.pdf", some ["q"]⟩
        ⟨Except.ok (), Except.ok ["page"], Except.ok ()⟩
        (fun _ => ⟨Except.ok 0, fun _ => Except.error "down",
          fun _ => Except.ok "ans"⟩) =
      (Resp.unauthorized, [], ["h0"]) :=
  authGate "secret" hashURL ["h0"]
    ⟨some "Bearer wrong", some "https://example.com/policy.pdf", some ["q"]⟩
    ⟨Except.ok (), Except.ok ["page"], Except.ok ()⟩
    (fun _ => ⟨Except.ok 0, fun _ => Except.error "down",
      fun _ => Except.ok "ans"⟩)
    (Or.inr (fun a ha => by simp at ha; subst ha; decide))

/-- A concrete all-successful ingestion oracle, for witnesses. -/
def okIngest : IngestOracle :=
  ⟨Except.ok (), Except.ok ["page"], Except.ok ()⟩

/-- A concrete oracle family for witnesses: the LLM call for `"q2"` always
fails, every other question answers normally. -/
def witnessOracle : String → QOracle := fun q =>
  if q = "q2"
  then ⟨Except.ok 0, fun _ => Except.ok ⟨["ctx"]⟩,
    fun _ => Except.error "rate limited"⟩
  else ⟨Except.ok 0, fun _ => Except.ok ⟨["ctx"]⟩,
    fun _ => Except.ok ("ans-" ++ q)⟩

theorem answerQuestion_fallback (q : String) (o : QOracle) (e : String)
    (hl : ∀ p, o.llm p = Except.error e) :
    (answerQuestion q o).1 = errorFallback := by
  unfold answerQuestion
  rcases hE : o.embedOut with e1 | v
  · rfl
  · rcases hq : queryWithRetry o.queryAttempt with ⟨res, tr⟩
    rcases res with e2 | r
    · simp [hq]
    · rcases r with _ | r
      · simp [hq]
      · simp [hq, hl]

theorem answerAll_fst (qs : List String) (qo : String → QOracle) :
    (answerAll qs qo).map Prod.fst =
      qs.map (fun q => (answerQuestion q (qo q)).1) := by
  simp [answerAll, List.map_map, Function.comp]

/-- C2: per-question failure isolation.  The answers array has one entry per
question, in input order; the entry at a position whose LLM call throws is
exactly the fixed fallback string; an entry is unaffected by the oracles of
other questions; and no per-question failure reaches the request handler —
the route still responds `200 {answers}`. -/
theorem answerIsolation (qs : List String) (qo qo' : String → QOracle)
    (token docs : String) (pd : List String) (ing : IngestOracle)
    (hd : docs ≠ "") (hmem : hashURL docs ∈ pd) :
    ((answerAll qs qo).map Prod.fst).length = qs.length ∧
    (∀ i, i < qs.length →
      ((answerAll qs qo).map Prod.fst)[i]? =
        some (answerQuestion (qs.getD i "") (qo (qs.getD i ""))).1) ∧
    (∀ i, i < qs.length → ∀ e,
      (∀ p, (qo (qs.getD i "")).llm p = Except.error e) →
      ((answerAll qs qo).map Prod.fst)[i]? = some errorFallback) ∧
    (∀ i, i < qs.length → qo (qs.getD i "") = qo' (qs.getD i "") →
      ((answerAll qs qo).map Prod.fst)[i]? =
        ((answerAll qs qo').map Prod.fst)[i]?) ∧
    (runRoute token hashURL pd (mkReq token docs qs) ing qo).1 =
      Resp.ok ((answerAll qs qo).map Prod.fst) := by
  have hpos : ∀ (qo'' : String → QOracle) i, i < qs.length →
      ((answerAll qs qo'').map Prod.fst)[i]? =
        some (answerQuestion (qs.getD i "") (qo'' (qs.getD i ""))).1 := by
    intro qo'' i hi
    rw [answerAll_fst, List.getElem?_map, List.getElem?_eq_getElem hi,
      List.getD_eq_getElem qs "" hi]
    rfl
  refine ⟨by simp [answerAll], hpos qo, ?_, ?_, ?_⟩
  · intro i hi e hl
    rw [hpos qo i hi, answerQuestion_fallback _ _ e hl]
  · intro i hi hagree
    rw [hpos qo i hi, hpos qo' i hi, hagree]
  · rw [runRoute_cacheHit token hashURL pd docs qs ing qo hd hmem]

/-- Witness for C2: three questions where the middle one's LLM call always
throws — the answers array still has three slots and the middle slot is the
fixed fallback string. -/
theorem answerIsolation_witness :
    ((answerAll ["q1", "q2", "q3"] witnessOracle).map Prod.fst).length = 3 ∧
    ((answerAll ["q1", "q2", "q3"] witnessOracle).map Prod.fst)[1]? =
      some errorFallback := by
  have h := answerIsolation ["q1", "q2", "q3"] witnessOracle witnessOracle
    "t" "https://example.com/policy.pdf"
    [hashURL "https://example.com/policy.pdf"] okIngest (by decide) (by simp)
  exact ⟨h.1, h.2.2.1 1 (by decide) "rate limited" (fun p => rfl)⟩

theorem collect_not_mem (run : Nat → String) (order : List Nat)
    (acc : List (Option String)) (i : Nat) (hn : i ∉ order) :
    (order.foldl (fun a j => a.set j (some (run j))) acc)[i]? = acc[i]? := by
  induction order generalizing acc with
  | nil => rfl
  | cons j rest ih =>
    have hij : j ≠ i := fun h => hn (by simp [h])
    rw [List.foldl_cons, ih _ (fun h => hn (List.mem_cons_of_mem _ h)),
      List.getElem?_set_ne hij]

theorem collect_mem (run : Nat → String) (order : List Nat)
    (acc : List (Option String)) (i : Nat) (hi : i < acc.length)
    (hmem : i ∈ order) :
    (order.foldl (fun a j => a.set j (some (run j))) acc)[i]? =
      some (some (run i)) := by
  induction order generalizing acc with
  | nil => cases hmem
  | cons j rest ih =>
    rw [List.foldl_cons]
    by_cases hr : i ∈ rest
    · exact ih _ (by simpa using hi) hr
    · have hij : i = j := by
        rcases List.mem_cons.mp hmem with h | h
        · exact h
        · exact absurd h hr
      subst hij
      rw [collect_not_mem run rest _ i hr,
        List.getElem?_set_eq_of_lt _ hi]

/-- C6: positional answer correspondence.  The response's answers array has
exactly one entry per question, the `i`-th entry is the answer computed for
the `i`-th question, and collecting the concurrently-settled results by
index (`Promise.all` semantics) yields that same positional assignment for
every settlement order that completes all questions. -/
theorem positionalAnswers (qs : List String) (qo : String → QOracle)
    (order : List Nat) (hall : ∀ i, i < qs.length → i ∈ order) :
    ((answerAll qs qo).map Prod.fst).length = qs.length ∧
    (∀ i, i < qs.length →
      ((answerAll qs qo).map Prod.fst)[i]? =
        some (answerQuestion (qs.getD i "") (qo (qs.getD i ""))).1) ∧
    (∀ i, i < qs.length →
      (collectByIndex
          (fun j => (answerQuestion (qs.getD j "") (qo (qs.getD j ""))).1)
          qs.length order)[i]? =
        some (some (answerQuestion (qs.getD i "") (qo (qs.getD i ""))).1)) := by
  refine ⟨by simp [answerAll], ?_, ?_⟩
  · intro i hi
    rw [answerAll_fst, List.getElem?_map, List.getElem?_eq_getElem hi,
      List.getD_eq_getElem qs "" hi]
    rfl
  · intro i hi
    exact collect_mem _ order _ i
      (by rw [List.length_replicate]; exact hi) (hall i hi)

/-- Witness for C6: two questions settling in reverse order still land in
their own slots. -/
theorem positionalAnswers_witness :
    (collectByIndex
        (fun j => (answerQuestion ((["qa", "qb"]).getD j "")
          ((fun _ => (⟨Except.ok 0, fun _ => Except.ok ⟨["ctx"]⟩,
            fun _ => Except.ok "ans"⟩ : QOracle)) ((["qa", "qb"]).getD j ""))).1)
        (["qa", "qb"]).length [1, 0])[0]? =
      some (some (answerQuestion "qa"
        ⟨Except.ok 0, fun _ => Except.ok ⟨["ctx"]⟩,
          fun _ => Except.ok "ans"⟩).1) :=
  (positionalAnswers ["qa", "qb"]
    (fun _ => ⟨Except.ok 0, fun _ => Except.ok ⟨["ctx"]⟩,
      fun _ => Except.ok "ans"⟩)
    [1, 0] (by decide)).2.2 0 (by decide)

/-- C7 counterexample: `transformQuery` does not always restore the
history — when the LLM rewrite call fails, `History.pop()` is never reached
and the speculative user turn stays appended. -/
theorem transformQuery_pollutes :
    (transformQuery [] "Is maternity covered?"
        (fun _ => Except.error "rewrite failed")).2 ≠ [] := by
  decide

/-- C7 amended: `transformQuery` removes the speculative user turn and
leaves the history exactly as it was whenever the LLM rewrite call
succeeds; when the call fails, the history is left with the speculative
user turn appended. -/
theorem transformQuery_historyBehavior (history : List Turn)
    (question : String) (llm : List Turn → Except String String) :
    (∀ r, llm (history ++ [⟨"user", question⟩]) = Except.ok r →
      (transformQuery history question llm).2 = history) ∧
    (∀ e, llm (history ++ [⟨"user", question⟩]) = Except.error e →
      (transformQuery history question llm).2 =
        history ++ [⟨"user", question⟩]) := by
  constructor
  · intro r hok
    unfold transformQuery
    rw [hok]
    exact List.dropLast_concat
  · intro e herr
    unfold transformQuery
    rw [herr]

/-- Witness for C7's amended claim: a successful rewrite restores a concrete
history, and a failing one appends the speculative turn. -/
theorem transformQuery_historyBehavior_witness :
    (transformQuery [⟨"user", "hello"⟩] "Is maternity covered?"
        (fun _ => Except.ok "Is maternity covered by this policy?")).2 =
      [⟨"user", "hello"⟩] ∧
    (transformQuery [⟨"user", "hello"⟩] "Is maternity covered?"
        (fun _ => Except.error "rewrite failed")).2 =
      [⟨"user", "hello"⟩] ++ [⟨"user", "Is maternity covered?"⟩] :=
  ⟨(transformQuery_historyBehavior [⟨"user", "hello"⟩] "Is maternity covered?"
      (fun _ => Except.ok "Is maternity covered by this policy?")).1
      "Is maternity covered by this policy?" rfl,
   (transformQuery_historyBehavior [⟨"user", "hello"⟩] "Is maternity covered?"
      (fun _ => Except.error "rewrite failed")).2
      "rewrite failed" rfl⟩

/-- C8 counterexample: in the part_000 variant the temporary artifact path
is the fixed `__dirname/temp.pdf` — two ingestions with distinct fresh UUIDs
available still write to the same path, so the claim's "for every remote
ingestion" fails on this variant. -/
theorem part000_sharedTempPath :
    "550e8400-e29b-41d4-a716-446655440000" ≠
        "f47ac10b-58cc-4372-a567-0e02b2c3d479" ∧
      part000PdfPath "/srv/app" "550e8400-e29b-41d4-a716-446655440000" =
        part000PdfPath "/srv/app" "f47ac10b-58cc-4372-a567-0e02b2c3d479" :=
  ⟨by decide, rfl⟩

/-- C8 amended: in the UUID variants (src/index.js, part_002, part_003) the
temporary path embeds the freshly generated UUID, so distinct UUIDs give
distinct paths and concurrent ingestions cannot collide; the part_000
variant instead always uses the fixed `__dirname/temp.pdf` path, identical
across ingestions. -/
theorem uuidTempPathsDistinct (u1 u2 ext d : String) (hne : u1 ≠ u2) :
    indexTempFilePath u1 ≠ indexTempFilePath u2 ∧
    part003LocalPath u1 ext ≠ part003LocalPath u2 ext ∧
    part000PdfPath d u1 = part000PdfPath d u2 := by
  have key : ∀ suf : String,
      "./temp-" ++ u1 ++ suf = "./temp-" ++ u2 ++ suf → u1 = u2 := by
    intro suf h
    have hdata : ("./temp-" ++ u1 ++ suf).data =
        ("./temp-" ++ u2 ++ suf).data := by rw [h]
    rw [String.data_append, String.data_append, String.data_append,
      String.data_append, List.append_assoc, List.append_assoc] at hdata
    have h1 : u1.data ++ suf.data = u2.data ++ suf.data :=
      List.append_cancel_left hdata
    have h2 : u1.data = u2.data := List.append_cancel_right h1
    cases u1; cases u2
    exact congrArg String.mk h2
  refine ⟨?_, ?_, rfl⟩
  · intro h
    exact hne (key ".pdf" h)
  · intro h
    exact hne (key ext h)

/-- Witness for C8's amended claim at two concrete UUIDs. -/
theorem uuidTempPathsDistinct_witness :
    indexTempFilePath "550e8400-e29b-41d4-a716-446655440000" ≠
        indexTempFilePath "f47ac10b-58cc-4372-a567-0e02b2c3d479" ∧
      part003LocalPath "550e8400-e29b-41d4-a716-446655440000" ".docx" ≠
        part003LocalPath "f47ac10b-58cc-4372-a567-0e02b2c3d479" ".docx" ∧
      part000PdfPath "/srv/app" "550e8400-e29b-41d4-a716-446655440000" =
        part000PdfPath "/srv/app" "f47ac10b-58cc-4372-a567-0e02b2c3d479" :=
  uuidTempPathsDistinct "550e8400-e29b-41d4-a716-446655440000"
    "f47ac10b-58cc-4372-a567-0e02b2c3d479" ".docx" "/srv/app" (by decide)

end HackRx
